import Mathlib

/-!
Verification of the relationship-mapper and sentiment-parsing core of the
`syrsent` repository.  The definitions below are a shallow embedding of
`src/analysis/relationships.py` and `src/analysis/sentiment.py`:
Python strings become `String`/`List Char`, Python dicts of fixed shape
become structures, Python `float` arithmetic on the sentiment proxies is
modelled with exact rationals, and fallible parsing returns `Option`.
-/

/-! ## String primitives modelling Python operations -/

/-- Boolean test that `needle` is a prefix of `haystack` (first argument is
the needle). -/
def startsWithL : List Char → List Char → Bool
  | [], _ => true
  | _ :: _, [] => false
  | a :: as, b :: bs => a = b && startsWithL as bs

/-- Python substring containment `needle in haystack` on character lists. -/
def containsSub (needle : List Char) : List Char → Bool
  | [] => needle.isEmpty
  | c :: t => startsWithL needle (c :: t) || containsSub needle t

/-- Python `needle in haystack` on strings. -/
def pyIn (needle haystack : String) : Bool :=
  containsSub needle.data haystack.data

/-- Lexicographic strict order on character lists, by code point: Python's
`<` on `str`. -/
def lexLtCh : List Char → List Char → Bool
  | [], [] => false
  | [], _ :: _ => true
  | _ :: _, [] => false
  | a :: as, b :: bs => if a < b then true else if a = b then lexLtCh as bs else false

/-- Lexicographic order on character lists, by code point: Python's `<=`
on `str`. -/
def lexLeCh : List Char → List Char → Bool
  | [], _ => true
  | _ :: _, [] => false
  | a :: as, b :: bs => if a < b then true else if a = b then lexLeCh as bs else false

/-- Python string comparison `a < b`. -/
def pyStrLt (a b : String) : Bool :=
  lexLtCh a.data b.data

/-- Python string comparison `a <= b`. -/
def pyStrLe (a b : String) : Bool :=
  lexLeCh a.data b.data

/-! ## Entity catalog (`ENTITIES` in relationships.py) -/

/-- Activity window of an entity, `active_period` in the source: optional
`start` and `end` bounds in `YYYY-MM` form. -/
structure ActivityPeriod where
  start : Option String := none
  «end» : Option String := none
  deriving DecidableEq

/-- One entry of the `ENTITIES` dict in relationships.py. -/
structure Entity where
  id : String
  name_en : String
  name_ar : String
  type : String
  active_period : ActivityPeriod := {}
  aliases : List String
  deriving DecidableEq

/-- Transcription of the `ENTITIES` dict of relationships.py, in its
insertion order. -/
def ENTITIES : List Entity :=
  [ { id := "نظام_الأسد", name_en := "Assad Regime", name_ar := "نظام الأسد",
      type := "former_government",
      active_period := { «end» := some "2024-12" },
      aliases := ["الأسد", "بشار", "نظام الأسد", "النظام السوري", "النظام البائد",
                  "الأسدي", "بشار الأسد", "النظام"] },
    { id := "الحكومة_الجديدة", name_en := "New Syrian Government",
      name_ar := "الحكومة السورية الجديدة", type := "current_government",
      active_period := { start := some "2024-12" },
      aliases := ["الحكومة الجديدة", "الحكومة السورية", "الحكومة الانتقالية",
                  "الإدارة الجديدة", "حكومة دمشق"] },
    { id := "هتش", name_en := "HTS / Al-Sharaa", name_ar := "هيئة تحرير الشام",
      type := "ruling_faction",
      aliases := ["هيئة تحرير الشام", "تحرير الشام", "الجولاني", "الشرع", "أحمد الشرع",
                  "الهيئة", "جبهة النصرة", "أبو محمد الجولاني"] },
    { id := "المعارضة", name_en := "Syrian Opposition", name_ar := "المعارضة السورية",
      type := "opposition",
      aliases := ["الثوار", "الفصائل", "الجيش الحر", "فصائل المعارضة", "الجيش الوطني",
                  "المعارضة السورية"] },
    { id := "قسد", name_en := "SDF / Kurdish Forces", name_ar := "قوات سوريا الديمقراطية",
      type := "armed_faction",
      aliases := ["قوات سوريا الديمقراطية", "الأكراد", "الكرد", "الإدارة الذاتية",
                  "ب ي د", "الوحدات الكردية"] },
    { id := "داعش", name_en := "ISIS", name_ar := "داعش", type := "terrorist",
      aliases := ["الدولة الإسلامية", "تنظيم الدولة", "داعش"] },
    { id := "روسيا", name_en := "Russia", name_ar := "روسيا", type := "foreign_power",
      aliases := ["الروس", "موسكو", "بوتين", "الروسي", "الجانب الروسي"] },
    { id := "أمريكا", name_en := "United States", name_ar := "الولايات المتحدة",
      type := "foreign_power",
      aliases := ["الولايات المتحدة", "واشنطن", "الأمريكي", "الإدارة الأمريكية",
                  "البيت الأبيض"] },
    { id := "إيران", name_en := "Iran", name_ar := "إيران", type := "foreign_power",
      aliases := ["طهران", "الإيراني", "الحرس الثوري", "النظام الإيراني"] },
    { id := "تركيا", name_en := "Turkey", name_ar := "تركيا", type := "foreign_power",
      aliases := ["أنقرة", "أردوغان", "التركي", "الجانب التركي"] },
    { id := "إسرائيل", name_en := "Israel", name_ar := "إسرائيل", type := "foreign_power",
      aliases := ["الاحتلال", "الإسرائيلي", "تل أبيب", "الصهيوني", "الكيان"] },
    { id := "حزب_الله", name_en := "Hezbollah", name_ar := "حزب الله", type := "militia",
      aliases := ["حزب الله", "حزب الله اللبناني", "الحزب"] },
    { id := "الميليشيات_الإيرانية", name_en := "Pro-Iran Militias",
      name_ar := "الميليشيات الإيرانية", type := "militia",
      aliases := ["الميليشيات", "الميليشيات الإيرانية", "الميليشيات الشيعية",
                  "الفصائل الموالية لإيران"] } ]

/-! ## Date parsing (`parse_date_to_period`) -/

/-- Decimal-digit test modelling `\d` of Python regexes on the character
ranges this corpus can contain: ASCII digits, Arabic-Indic digits and
extended Arabic-Indic digits.  (Python's `\d` also accepts further Unicode
decimal ranges; none of them occur in the inputs considered here.) -/
def pyIsDigit (c : Char) : Bool :=
  ('0' ≤ c && c ≤ '9') || ('٠' ≤ c && c ≤ '٩') ||
    ('۰' ≤ c && c ≤ '۹')

/-- Arabic month-name table `ar_months` of `parse_date_to_period`, in dict
insertion order. -/
def ar_months : List (String × String) :=
  [("يناير", "01"), ("فبراير", "02"), ("مارس", "03"), ("أبريل", "04"),
   ("مايو", "05"), ("يونيو", "06"), ("يوليو", "07"), ("أغسطس", "08"),
   ("سبتمبر", "09"), ("أكتوبر", "10"), ("نوفمبر", "11"), ("ديسمبر", "12"),
   ("كانون الثاني", "01"), ("شباط", "02"), ("آذار", "03"), ("نيسان", "04"),
   ("أيار", "05"), ("حزيران", "06"), ("تموز", "07"), ("آب", "08"),
   ("أيلول", "09"), ("تشرين الأول", "10"), ("تشرين الثاني", "11"),
   ("كانون الأول", "12")]

/-- Leftmost match of the regex `(20\d{2})` (`re.search` in
`parse_date_to_period`): the first position whose next four characters are
`2`, `0`, digit, digit. -/
def searchYear : List Char → Option String
  | c1 :: c2 :: c3 :: c4 :: rest =>
      if c1 = '2' ∧ c2 = '0' ∧ pyIsDigit c3 ∧ pyIsDigit c4 then
        some (String.mk [c1, c2, c3, c4])
      else searchYear (c2 :: c3 :: c4 :: rest)
  | _ => none

/-- First Arabic month name (in `ar_months` order) occurring in the date
string, modelling the month loop of `parse_date_to_period`. -/
def searchMonth (date_str : String) : Option String :=
  (ar_months.find? (fun p => pyIn p.1 date_str)).map (fun p => p.2)

/-- Embedding of `parse_date_to_period` of relationships.py.  (`None` as
input is also falsy in Python and behaves like the empty string.) -/
def parse_date_to_period (date_str : String) : String :=
  if date_str = "" then "unknown"
  else
    match searchYear date_str.data with
    | none => "unknown"
    | some year => year ++ "-" ++ (searchMonth date_str).getD "01"

/-! ## Entity matcher (`find_entities_in_text`) -/

/-- Activity-window suppression test of `find_entities_in_text`: the source
guard is `if period and period != "unknown":`, so the entity is skipped
(`continue`) exactly when a truthy (non-empty) period other than
`"unknown"` is supplied, the window has a `start` bound and the period is
lexicographically below it.  An `end` bound never suppresses (the source's
branch for it is `pass`). -/
def suppressed (info : Entity) (period : Option String) : Bool :=
  match period with
  | none => false
  | some p =>
      if p = "" then false
      else if p = "unknown" then false
      else
        match info.active_period.start with
        | some s => pyStrLt p s
        | none => false

/-- Alias loop of `find_entities_in_text`: some alias of the entity occurs
as a substring of the text. -/
def alias_matches (info : Entity) (text : String) : Bool :=
  info.aliases.any (fun a => pyIn a text)

/-- Predicate deciding whether `find_entities_in_text` adds the entity. -/
def entity_kept (info : Entity) (text : String) (period : Option String) : Bool :=
  !(suppressed info period) && alias_matches info text

/-- Body of `find_entities_in_text`, generalized over the catalog being
iterated (the source iterates the module-level `ENTITIES` dict).  The
returned list carries the detected identifiers in catalog order; since
catalog identifiers are distinct this is the Python result set. -/
def findEntitiesIn (catalog : List Entity) (text : String)
    (period : Option String) : List String :=
  if text = "" then []
  else (catalog.filter (fun info => entity_kept info text period)).map (fun info => info.id)

/-- Embedding of `find_entities_in_text` of relationships.py. -/
def find_entities_in_text (text : String) (period : Option String) : List String :=
  findEntitiesIn ENTITIES text period

/-! ## Period aggregator (`find_articles_with_entity_pairs`) -/

/-- Input article record (title, body, free-text date, url). -/
structure Article where
  title : String := ""
  content : String := ""
  date : String := ""
  url : String := ""
  deriving DecidableEq

/-- Article reference stored per pair and period by the aggregator:
title, content truncated to 2000 characters, date, period, url. -/
structure ArticleRef where
  title : String
  content : String
  date : String
  period : String
  url : String
  deriving DecidableEq

/-- Canonical key of an unordered entity pair: the two identifiers joined
by `|` in sorted order, as produced by the aggregator's nested loop over
the sorted entity list. -/
def canonical_key (a b : String) : String :=
  if pyStrLe a b then a ++ "|" ++ b else b ++ "|" ++ a

/-- Ordered pairs `(l[i], l[j])` with `i < j`, the nested
`for i, e1 ... for e2 in entity_list[i+1:]` loop of the aggregator. -/
def listPairs : List α → List (α × α)
  | [] => []
  | x :: xs => (xs.map (fun y => (x, y))) ++ listPairs xs

/-- Entities detected in an article by the aggregator: the matcher run on
`title ++ "\n" ++ content` with the article's derived period. -/
def detected_entities (article : Article) : List String :=
  find_entities_in_text (article.title ++ "\n" ++ article.content)
    (some (parse_date_to_period article.date))

/-- Pair-period entries one article contributes in
`find_articles_with_entity_pairs`: when at least two entities are detected,
one entry per ordered position pair of the sorted entity list, keyed by the
joined pair key and the article's period. -/
def pair_entries_for_article (article : Article) : List (String × String × ArticleRef) :=
  if 2 ≤ (detected_entities article).length then
    (listPairs ((detected_entities article).mergeSort (fun a b => pyStrLe a b))).map
      (fun p =>
        (p.1 ++ "|" ++ p.2, parse_date_to_period article.date,
          { title := article.title, content := article.content.take 2000,
            date := article.date, period := parse_date_to_period article.date,
            url := article.url }))
  else []

/-- Embedding of `find_articles_with_entity_pairs`: the stream of
(pair key, period, article reference) entries appended into the nested
`defaultdict`.  The Python mapping is this stream grouped by its first two
components. -/
def find_articles_with_entity_pairs (articles : List Article) :
    List (String × String × ArticleRef) :=
  articles.flatMap pair_entries_for_article

/-! ## Trend heuristic of `build_relationship_timeline` -/

/-- Sentiment proxy `sentiment_score` of `build_relationship_timeline`,
with the Python float values as exact rationals. -/
def sentiment_score (t : String) : ℚ :=
  if t ∈ (["alliance", "support", "cooperation"] : List String) then 1
  else if t ∈ (["conflict", "opposition"] : List String) then -1
  else if t ∈ (["tension"] : List String) then -1/2
  else 0

/-- First half of the ordered period list, `timeline[:len(timeline)//2]`. -/
def first_half (types : List String) : List String :=
  types.take (types.length / 2)

/-- Second half of the ordered period list, `timeline[len(timeline)//2:]`. -/
def second_half (types : List String) : List String :=
  types.drop (types.length / 2)

/-- Mean sentiment proxy of one half (exact rational arithmetic in place of
Python floats). -/
def half_avg (l : List String) : ℚ :=
  (l.map sentiment_score).sum / (l.length : ℚ)

/-- Trend computation of `build_relationship_timeline`, as a function of
the ordered sequence of period relationship categories
(`t.get("relationship_type", "neutral")` for each timeline entry). -/
def computeTrend (types : List String) : String :=
  if 2 ≤ types.length then
    if half_avg (second_half types) > half_avg (first_half types) + 3/10 then "improving"
    else if half_avg (second_half types) < half_avg (first_half types) - 3/10 then
      "deteriorating"
    else "stable"
  else "insufficient_data"

/-! ## JSON values and a model of Python `json.loads` -/

/-- JSON value as produced by `json.loads`.  Numbers are modelled as exact
rationals (Python parses integers exactly; float rounding of fractional
literals is not modelled and not exercised here).  Objects keep first-key
position with last-value-wins semantics, as a Python dict does. -/
inductive JVal where
  | jnull : JVal
  | jbool : Bool → JVal
  | jnum : ℚ → JVal
  | jstr : List Char → JVal
  | jarr : List JVal → JVal
  | jobj : List (List Char × JVal) → JVal

/-- JSON whitespace skipping (space, tab, newline, carriage return). -/
def skipJWs : List Char → List Char
  | [] => []
  | c :: t => if c = ' ' ∨ c = '\t' ∨ c = '\n' ∨ c = '\r' then skipJWs t else c :: t

/-- Dict insertion `d[k] = v`: an existing key keeps its position and gets
the new value, a new key is appended. -/
def objInsert : List (List Char × JVal) → List Char → JVal → List (List Char × JVal)
  | [], k, v => [(k, v)]
  | (k', v') :: t, k, v =>
      if k' = k then (k', v) :: t else (k', v') :: objInsert t k v

/-- Value of a hexadecimal digit. -/
def hexVal (c : Char) : Option Nat :=
  if '0' ≤ c ∧ c ≤ '9' then some (c.toNat - 48)
  else if 'a' ≤ c ∧ c ≤ 'f' then some (c.toNat - 87)
  else if 'A' ≤ c ∧ c ≤ 'F' then some (c.toNat - 55)
  else none

/-- Four-hex-digit escape payload of a `\u` escape. -/
def parseHex4 : List Char → Option (Nat × List Char)
  | c1 :: c2 :: c3 :: c4 :: rest =>
      match hexVal c1, hexVal c2, hexVal c3, hexVal c4 with
      | some h1, some h2, some h3, some h4 =>
          some (((h1 * 16 + h2) * 16 + h3) * 16 + h4, rest)
      | _, _, _, _ => none
  | _ => none

/-- JSON string body parser (after the opening quote): returns the decoded
characters and the remainder after the closing quote.  Raw control
characters are rejected (`json.loads` default strict mode). -/
def parseJString : Nat → List Char → Option (List Char × List Char)
  | 0, _ => none
  | _, [] => none
  | fuel + 1, c :: t =>
      if c = '"' then some ([], t)
      else if c = '\\' then
        match t with
        | [] => none
        | e :: t2 =>
            if e = '"' ∨ e = '\\' ∨ e = '/' then
              match parseJString fuel t2 with
              | some (s, r) => some (e :: s, r)
              | none => none
            else if e = 'b' ∨ e = 'f' ∨ e = 'n' ∨ e = 'r' ∨ e = 't' then
              let d : Char :=
                if e = 'b' then '\x08' else if e = 'f' then '\x0c'
                else if e = 'n' then '\n' else if e = 'r' then '\r' else '\t'
              match parseJString fuel t2 with
              | some (s, r) => some (d :: s, r)
              | none => none
            else if e = 'u' then
              match parseHex4 t2 with
              | some (n, t3) =>
                  match parseJString fuel t3 with
                  | some (s, r) => some (Char.ofNat n :: s, r)
                  | none => none
              | none => none
            else none
      else if c.toNat < 32 then none
      else
        match parseJString fuel t with
        | some (s, r) => some (c :: s, r)
        | none => none

/-- Digit run accumulator: value, digit count, remainder. -/
def parseDigits : List Char → Nat → Nat → Nat × Nat × List Char
  | c :: t, acc, cnt =>
      if '0' ≤ c ∧ c ≤ '9' then parseDigits t (acc * 10 + (c.toNat - 48)) (cnt + 1)
      else (acc, cnt, c :: t)
  | [], acc, cnt => (acc, cnt, [])

/-- Integer part per the JSON grammar: a single `0`, or a nonzero digit
followed by a digit run. -/
def parseIntPart : List Char → Option (Nat × List Char)
  | '0' :: t => some (0, t)
  | c :: t =>
      if '1' ≤ c ∧ c ≤ '9' then
        match parseDigits t (c.toNat - 48) 1 with
        | (v, _, rest) => some (v, rest)
      else none
  | [] => none

/-- Optional fractional part `.digits`; returns numerator, digit count and
remainder. -/
def parseFracPart : List Char → Option (Nat × Nat × List Char)
  | '.' :: t =>
      match parseDigits t 0 0 with
      | (_, 0, _) => none
      | (v, cnt, rest) => some (v, cnt, rest)
  | l => some (0, 0, l)

/-- Optional exponent part `[eE][+-]?digits`; returns the signed exponent
and the remainder. -/
def parseExpPart : List Char → Option (Int × List Char)
  | c :: t =>
      if c = 'e' ∨ c = 'E' then
        match t with
        | '+' :: t2 =>
            match parseDigits t2 0 0 with
            | (_, 0, _) => none
            | (v, _, rest) => some ((v : Int), rest)
        | '-' :: t2 =>
            match parseDigits t2 0 0 with
            | (_, 0, _) => none
            | (v, _, rest) => some (-(v : Int), rest)
        | _ =>
            match parseDigits t 0 0 with
            | (_, 0, _) => none
            | (v, _, rest) => some ((v : Int), rest)
      else some (0, c :: t)
  | [] => some (0, [])

/-- JSON number parser (`NaN`/`Infinity`, which Python accepts by default,
are not modelled; they do not occur in the inputs considered here). -/
def parseNumber (l : List Char) : Option (ℚ × List Char) :=
  let (neg, l1) : Bool × List Char :=
    match l with
    | '-' :: t => (true, t)
    | _ => (false, l)
  match parseIntPart l1 with
  | none => none
  | some (ip, r1) =>
      match parseFracPart r1 with
      | none => none
      | some (fv, fc, r2) =>
          match parseExpPart r2 with
          | none => none
          | some (ex, r3) =>
              let mant : Int :=
                (if neg then -1 else 1) * ((ip * 10 ^ fc + fv : Nat) : Int)
              let q : ℚ :=
                if 0 ≤ ex then mkRat (mant * (10 : Int) ^ ex.toNat) (10 ^ fc)
                else mkRat mant (10 ^ (fc + (-ex).toNat))
              some (q, r3)

mutual

/-- JSON value parser: leading whitespace, then one value. -/
def parseJValue : Nat → List Char → Option (JVal × List Char)
  | 0, _ => none
  | fuel + 1, l =>
      match skipJWs l with
      | [] => none
      | c :: t =>
          if c = '\x7b' then parseObjBody fuel t
          else if c = '[' then parseArrBody fuel t
          else if c = '"' then
            match parseJString (t.length + 1) t with
            | some (s, r) => some (JVal.jstr s, r)
            | none => none
          else if c = 't' then
            if startsWithL ['r', 'u', 'e'] t then some (JVal.jbool true, t.drop 3) else none
          else if c = 'f' then
            if startsWithL ['a', 'l', 's', 'e'] t then some (JVal.jbool false, t.drop 4)
            else none
          else if c = 'n' then
            if startsWithL ['u', 'l', 'l'] t then some (JVal.jnull, t.drop 3) else none
          else if c = '-' ∨ ('0' ≤ c ∧ c ≤ '9') then
            match parseNumber (c :: t) with
            | some (q, r) => some (JVal.jnum q, r)
            | none => none
          else none

/-- Array body parser (after `[`). -/
def parseArrBody : Nat → List Char → Option (JVal × List Char)
  | 0, _ => none
  | fuel + 1, l =>
      match skipJWs l with
      | ']' :: t => some (JVal.jarr [], t)
      | l' => parseArrItems fuel l' []

/-- Array item loop: value, then `,` and further items or `]`. -/
def parseArrItems : Nat → List Char → List JVal → Option (JVal × List Char)
  | 0, _, _ => none
  | fuel + 1, l, acc =>
      match parseJValue fuel l with
      | none => none
      | some (v, r) =>
          match skipJWs r with
          | ',' :: t => parseArrItems fuel t (acc ++ [v])
          | ']' :: t => some (JVal.jarr (acc ++ [v]), t)
          | _ => none

/-- Object body parser (after the opening brace). -/
def parseObjBody : Nat → List Char → Option (JVal × List Char)
  | 0, _ => none
  | fuel + 1, l =>
      match skipJWs l with
      | '\x7d' :: t => some (JVal.jobj [], t)
      | l' => parseObjMembers fuel l' []

/-- Object member loop: string key, `:`, value, then `,` or closing brace. -/
def parseObjMembers : Nat → List Char → List (List Char × JVal) →
    Option (JVal × List Char)
  | 0, _, _ => none
  | fuel + 1, l, acc =>
      match skipJWs l with
      | '"' :: t =>
          match parseJString (t.length + 1) t with
          | none => none
          | some (k, r) =>
              match skipJWs r with
              | ':' :: r2 =>
                  match parseJValue fuel r2 with
                  | none => none
                  | some (v, r3) =>
                      match skipJWs r3 with
                      | ',' :: r4 => parseObjMembers fuel r4 (objInsert acc k v)
                      | '\x7d' :: r4 => some (JVal.jobj (objInsert acc k v), r4)
                      | _ => none
              | _ => none
      | _ => none

end

/-- Model of Python `json.loads` on a character list: parse one value and
require only whitespace after it. -/
def jsonParse (l : List Char) : Option JVal :=
  match parseJValue (4 * (l.length + 1)) l with
  | none => none
  | some (v, rest) => if (skipJWs rest).isEmpty then some v else none

/-! ## Response cleaning (`clean_json_response` in sentiment.py) -/

/-- Whitespace test for Python's `\s` and `str.strip`, over the whitespace
characters this pipeline can meet (ASCII whitespace; further Unicode
whitespace also matches in Python but does not occur here). -/
def pyIsSpace (c : Char) : Bool :=
  c = ' ' ∨ c = '\t' ∨ c = '\n' ∨ c = '\r' ∨ c = '\x0b' ∨ c = '\x0c'

/-- Python `str.lstrip()`. -/
def pyLStrip (l : List Char) : List Char :=
  l.dropWhile pyIsSpace

/-- Python `str.rstrip()`. -/
def pyRStrip (l : List Char) : List Char :=
  (pyLStrip l.reverse).reverse

/-- Python `str.strip()`. -/
def pyStripBoth (l : List Char) : List Char :=
  pyRStrip (pyLStrip l)

/-- Remainder after the first occurrence of `pat`, or `none` when `pat`
does not occur. -/
def dropThroughFirst (pat : List Char) : List Char → Option (List Char)
  | [] => if pat.isEmpty then some [] else none
  | c :: t =>
      if startsWithL pat (c :: t) then some ((c :: t).drop pat.length)
      else dropThroughFirst pat t

/-- Characters before the first occurrence of `pat` (the whole list when
`pat` does not occur). -/
def takeUntilPat (pat : List Char) : List Char → List Char
  | [] => []
  | c :: t => if startsWithL pat (c :: t) then [] else c :: takeUntilPat pat t

/-- One pass of `re.sub(r'<think>[\s\S]*?</think>', '', text)`: every
non-overlapping minimal span from a `<think>` to the nearest `</think>`
is removed. -/
def subThink : Nat → List Char → List Char
  | 0, l => l
  | _, [] => []
  | fuel + 1, c :: t =>
      if startsWithL "<think>".data (c :: t) then
        match dropThroughFirst "</think>".data ((c :: t).drop 7) with
        | some rest => subThink fuel rest
        | none => c :: subThink fuel t
      else c :: subThink fuel t

/-- Model of `re.sub(r'<think>[\s\S]*$', '', text)`: everything from the
first `<think>` on is removed. -/
def subThinkOpen (l : List Char) : List Char :=
  takeUntilPat "<think>".data l

/-- The `while "<think>" in text` loop of `clean_json_response`; each
iteration strictly shrinks the text, so fuel `length + 1` reaches the
fixpoint. -/
def thinkLoop : Nat → List Char → List Char
  | 0, l => l
  | fuel + 1, l =>
      if containsSub "<think>".data l then
        thinkLoop fuel (subThinkOpen (subThink (l.length + 1) l))
      else l

/-- Python `text.replace(pat, '')` (all non-overlapping occurrences,
left to right). -/
def removeAllPat (pat : List Char) : Nat → List Char → List Char
  | 0, l => l
  | _, [] => []
  | fuel + 1, c :: t =>
      if startsWithL pat (c :: t) then removeAllPat pat fuel ((c :: t).drop pat.length)
      else c :: removeAllPat pat fuel t

/-- Group 1 of the leftmost match of
`re.search(r'```(?:json)?\s*([\s\S]*?)```', text)`: after an opening
fence (and an optional `json` tag) whose remainder still contains a
closing fence, the greedy `\s*` swallows the leading whitespace and the
non-greedy group stops at the nearest fence. -/
def fenceSearch : List Char → Option (List Char)
  | [] => none
  | c :: t =>
      if startsWithL "```".data (c :: t) then
        let r := (c :: t).drop 3
        let r2 := if startsWithL "json".data r then r.drop 4 else r
        if containsSub "```".data r2 then
          some (takeUntilPat "```".data (r2.dropWhile pyIsSpace))
        else fenceSearch t
      else fenceSearch t

/-- Text from the first opening brace on, or `none` when the text has no
brace at all (the source's find returning -1). -/
def dropBeforeBrace : List Char → Option (List Char)
  | [] => none
  | c :: t => if c = '\x7b' then some (c :: t) else dropBeforeBrace t

/-- Brace-matching slice of `clean_json_response`: starting on a `{`,
keep characters until the depth counter returns to zero, or to the end
when it never does. -/
def braceTake : List Char → Nat → List Char
  | [], _ => []
  | c :: t, depth =>
      if c = '\x7b' then c :: braceTake t (depth + 1)
      else if c = '\x7d' then
        if depth = 1 then [c] else c :: braceTake t (depth - 1)
      else c :: braceTake t depth

/-- Control-character removal `re.sub(r'[\x00-\x08\x0b\x0c\x0e-\x1f]', '', text)`. -/
def stripCtrl (l : List Char) : List Char :=
  l.filter (fun c =>
    ¬(c.toNat ≤ 8 ∨ c.toNat = 11 ∨ c.toNat = 12 ∨ (14 ≤ c.toNat ∧ c.toNat ≤ 31)))

/-- Truncation repair of `clean_json_response`: right-strip, close an odd
quote count, then append the missing `]`s and `}`s.  (Python's negative
repeat counts produce empty strings, as `List.replicate` does on the
truncated subtraction.) -/
def repairTruncated (l : List Char) : List Char :=
  let fixed := pyRStrip l
  let openBraces := fixed.count '\x7b' - fixed.count '\x7d'
  let openBrackets := fixed.count '[' - fixed.count ']'
  let openQuotes := fixed.count '"' % 2
  fixed ++ (if openQuotes = 1 then ['"'] else []) ++
    List.replicate openBrackets ']' ++ List.replicate openBraces '\x7d'

/-- Embedding of `clean_json_response` of sentiment.py: strip reasoning
tags, extract a fenced block, slice the first balanced object, drop
control characters, parse, and on failure parse once more after the
truncation repair.  Total by construction; every failure path yields
`none`, mirroring the `return None` paths of the source. -/
def clean_json_response (text : String) : Option JVal :=
  let l0 := text.data
  let l1 := thinkLoop (l0.length + 1) l0
  let l2 := removeAllPat "<think>".data (l1.length + 1) l1
  let l3 := removeAllPat "</think>".data (l2.length + 1) l2
  let l4 :=
    if containsSub "```".data l3 then
      match fenceSearch l3 with
      | some body => body
      | none => l3
    else l3
  let l5 := pyStripBoth l4
  match dropBeforeBrace l5 with
  | none => none
  | some fromBrace =>
      let sliced := braceTake fromBrace 0
      let cleaned := stripCtrl sliced
      match jsonParse cleaned with
      | some v => some v
      | none => jsonParse (repairTruncated cleaned)

/-! ## Post-processing of a period analysis (`analyze_relationship_period`) -/

/-- Evidence item of a parsed period analysis: quote, optional 1-based
article index (`ev.get("article_index", 1)` defaults a missing index to 1),
and the url/title fields the post-processing may attach. -/
structure Evidence where
  quote : String := ""
  article_index : Option Int := none
  article_url : Option String := none
  article_title : Option String := none
  deriving DecidableEq

/-- Referenced article resolved from `article_references`. -/
structure ResolvedArticle where
  title : String
  url : String
  date : String
  deriving DecidableEq

/-- Parsed period analysis, with the fields the post-processing block of
`analyze_relationship_period` touches. -/
structure Analysis where
  relationship_type : String := "no_data"
  evidence : List Evidence := []
  article_references : List Int := []
  articles : List ResolvedArticle := []
  deriving DecidableEq

/-- Evidence post-processing of `analyze_relationship_period`: with
`idx = article_index - 1`, attach the article's url and title when
`0 <= idx < len(articles)`; otherwise return the item unchanged. -/
def attach_evidence (articles : List ArticleRef) (ev : Evidence) : Evidence :=
  let idx : Int := ev.article_index.getD 1 - 1
  if 0 ≤ idx ∧ idx < (articles.length : Int) then
    match articles.get? idx.toNat with
    | some art => { ev with article_url := some art.url, article_title := some art.title }
    | none => ev
  else ev

/-- Reference resolution of `analyze_relationship_period`: each index with
`0 < idx <= len(articles)` yields the referenced article's title/url/date;
out-of-range indices yield nothing. -/
def resolve_references (articles : List ArticleRef) (refs : List Int) :
    List ResolvedArticle :=
  refs.filterMap (fun idx =>
    if 0 < idx ∧ idx ≤ (articles.length : Int) then
      (articles.get? (idx - 1).toNat).map
        (fun art => { title := art.title, url := art.url, date := art.date })
    else none)

/-- Post-processing block of `analyze_relationship_period`: evidence items
get urls attached in place, and the resolved reference list is stored under
`articles`; every other field (`article_references` included) is returned
as parsed. -/
def postprocess_analysis (articles : List ArticleRef) (an : Analysis) : Analysis :=
  { an with evidence := an.evidence.map (attach_evidence articles),
            articles := resolve_references articles an.article_references }

/-! ## Concrete fixtures used by the witnesses and counterexamples -/

/-- Catalog entry with an empty alias list, exercising the zero-alias case
of the matcher. -/
def zeroAliasEntity : Entity :=
  { id := "X", name_en := "X", name_ar := "X", type := "faction", aliases := [] }

/-- Catalog entry with a single Latin-script alias, exercising case
sensitivity of the matcher. -/
def latinAliasEntity : Entity :=
  { id := "hts_latin", name_en := "HTS", name_ar := "هتش", type := "faction",
    aliases := ["HTS"] }

/-- Article mentioning aliases of Russia and Turkey, dated January 2025. -/
def pairArticle : Article :=
  { title := "بوتين وأردوغان يبحثان الملف السوري",
    content := "ناقش الجانبان تطورات الوضع في دمشق.",
    date := "15 يناير 2025",
    url := "https://example.org/a1" }

/-- Single-element period article list for the post-processing fixtures. -/
def periodArticles1 : List ArticleRef :=
  [{ title := "مقال أول", content := "نص", date := "5 يناير 2025",
     period := "2025-01", url := "https://example.org/p1" }]

/-- Parsed analysis whose evidence and references point at article index 5,
out of range for `periodArticles1`. -/
def outOfRangeAnalysis : Analysis :=
  { relationship_type := "tension",
    evidence := [{ quote := "اقتباس", article_index := some 5 }],
    article_references := [5] }

/-- Catalog entry for Russia, as listed in `ENTITIES`. -/
def russiaEntity : Entity :=
  { id := "روسيا", name_en := "Russia", name_ar := "روسيا", type := "foreign_power",
    aliases := ["الروس", "موسكو", "بوتين", "الروسي", "الجانب الروسي"] }

/-- Catalog entry for the Assad regime, as listed in `ENTITIES`. -/
def assadEntity : Entity :=
  { id := "نظام_الأسد", name_en := "Assad Regime", name_ar := "نظام الأسد",
    type := "former_government",
    active_period := { «end» := some "2024-12" },
    aliases := ["الأسد", "بشار", "نظام الأسد", "النظام السوري", "النظام البائد",
                "الأسدي", "بشار الأسد", "النظام"] }

/-- Parsed analysis whose single evidence item and reference point at
article index 1, in range for `periodArticles1`. -/
def inRangeAnalysis : Analysis :=
  { relationship_type := "cooperation",
    evidence := [{ quote := "اقتباس صحيح", article_index := some 1 }],
    article_references := [1] }

/-! ## Helper lemmas -/

/-! ## Helper lemmas about the lexicographic comparison -/

/-- Head characterization of `lexLeCh` on two nonempty lists. -/
theorem lexLeCh_cons {a b : Char} {as bs : List Char} :
    lexLeCh (a :: as) (b :: bs) = true ↔ a < b ∨ (a = b ∧ lexLeCh as bs = true) := by
  simp [lexLeCh]

/-- Head characterization of `lexLtCh` on two nonempty lists. -/
theorem lexLtCh_cons {a b : Char} {as bs : List Char} :
    lexLtCh (a :: as) (b :: bs) = true ↔ a < b ∨ (a = b ∧ lexLtCh as bs = true) := by
  simp [lexLtCh]

/-- Reflexivity of `lexLeCh`. -/
theorem lexLeCh_refl : ∀ l : List Char, lexLeCh l l = true
  | [] => rfl
  | a :: as => by
      rw [lexLeCh_cons]
      exact Or.inr ⟨rfl, lexLeCh_refl as⟩

/-- Totality of `lexLeCh`. -/
theorem lexLeCh_total : ∀ a b : List Char, lexLeCh a b = true ∨ lexLeCh b a = true
  | [], _ => Or.inl rfl
  | _ :: _, [] => Or.inr rfl
  | a :: as, b :: bs => by
      rcases lt_trichotomy a b with h | h | h
      · exact Or.inl (lexLeCh_cons.mpr (Or.inl h))
      · rcases lexLeCh_total as bs with ht | ht
        · exact Or.inl (lexLeCh_cons.mpr (Or.inr ⟨h, ht⟩))
        · exact Or.inr (lexLeCh_cons.mpr (Or.inr ⟨h.symm, ht⟩))
      · exact Or.inr (lexLeCh_cons.mpr (Or.inl h))

/-- Transitivity of `lexLeCh`. -/
theorem lexLeCh_trans : ∀ a b c : List Char,
    lexLeCh a b = true → lexLeCh b c = true → lexLeCh a c = true
  | [], _, c, _, _ => by cases c with | nil => rfl | cons _ _ => rfl
  | _ :: _, [], _, hab, _ => by simp [lexLeCh] at hab
  | _ :: _, _ :: _, [], _, hbc => by simp [lexLeCh] at hbc
  | a :: as, b :: bs, c :: cs, hab, hbc => by
      rcases lexLeCh_cons.mp hab with h1 | ⟨h1, h1t⟩ <;>
        rcases lexLeCh_cons.mp hbc with h2 | ⟨h2, h2t⟩
      · exact lexLeCh_cons.mpr (Or.inl (lt_trans h1 h2))
      · exact lexLeCh_cons.mpr (Or.inl (h2 ▸ h1))
      · exact lexLeCh_cons.mpr (Or.inl (h1 ▸ h2))
      · exact lexLeCh_cons.mpr (Or.inr ⟨h1.trans h2, lexLeCh_trans as bs cs h1t h2t⟩)

/-- Antisymmetry of `lexLeCh`. -/
theorem lexLeCh_antisymm : ∀ a b : List Char,
    lexLeCh a b = true → lexLeCh b a = true → a = b
  | [], [], _, _ => rfl
  | [], _ :: _, _, hba => by simp [lexLeCh] at hba
  | _ :: _, [], hab, _ => by simp [lexLeCh] at hab
  | a :: as, b :: bs, hab, hba => by
      rcases lexLeCh_cons.mp hab with h1 | ⟨h1, h1t⟩ <;>
        rcases lexLeCh_cons.mp hba with h2 | ⟨h2, h2t⟩
      · exact absurd (lt_trans h1 h2) (lt_irrefl a)
      · exact absurd h1 (h2 ▸ lt_irrefl a)
      · exact absurd h2 (h1 ▸ lt_irrefl a)
      · rw [h1, lexLeCh_antisymm as bs h1t h2t]

/-- Strict comparison as the order with disequality. -/
theorem lexLtCh_iff : ∀ a b : List Char,
    lexLtCh a b = true ↔ lexLeCh a b = true ∧ a ≠ b
  | [], [] => by simp [lexLtCh, lexLeCh]
  | [], _ :: _ => by simp [lexLtCh, lexLeCh]
  | _ :: _, [] => by simp [lexLtCh, lexLeCh]
  | a :: as, b :: bs => by
      rw [lexLtCh_cons, lexLeCh_cons, lexLtCh_iff as bs]
      constructor
      · rintro (h | ⟨h, ht, hne⟩)
        · exact ⟨Or.inl h, by simp; rintro rfl; exact absurd h (lt_irrefl a)⟩
        · exact ⟨Or.inr ⟨h, ht⟩, by simp [h]; exact hne⟩
      · rintro ⟨h | ⟨h, ht⟩, hne⟩
        · exact Or.inl h
        · refine Or.inr ⟨h, ht, ?_⟩
          rintro rfl
          exact hne (by rw [h])

/-- Transitivity of the strict comparison. -/
theorem lexLtCh_trans {a b c : List Char}
    (hab : lexLtCh a b = true) (hbc : lexLtCh b c = true) : lexLtCh a c = true := by
  rcases (lexLtCh_iff a b).mp hab with ⟨h1, hne1⟩
  rcases (lexLtCh_iff b c).mp hbc with ⟨h2, _⟩
  refine (lexLtCh_iff a c).mpr ⟨lexLeCh_trans a b c h1 h2, ?_⟩
  rintro rfl
  exact hne1 (lexLeCh_antisymm a b h1 h2)

/-- Irreflexivity of the strict comparison. -/
theorem lexLtCh_irrefl (a : List Char) : lexLtCh a a = false := by
  by_contra h
  exact absurd rfl ((lexLtCh_iff a a).mp (by simpa using h)).2

/-- Python string order `pyStrLe` is antisymmetric. -/
theorem pyStrLe_antisymm {a b : String} (hab : pyStrLe a b = true)
    (hba : pyStrLe b a = true) : a = b := by
  cases a; cases b
  exact congrArg String.mk (lexLeCh_antisymm _ _ hab hba)

/-- Symmetry of the canonical pair key (shared helper). -/
theorem canonical_key_comm (a b : String) : canonical_key a b = canonical_key b a := by
  unfold canonical_key
  by_cases h1 : pyStrLe a b = true
  · by_cases h2 : pyStrLe b a = true
    · rw [pyStrLe_antisymm h1 h2]
    · rw [if_pos h1, if_neg (by simpa using h2)]
  · have h2 : pyStrLe b a = true := by
      rcases lexLeCh_total a.data b.data with h | h
      · exact absurd h h1
      · exact h
    rw [if_neg (by simpa using h1), if_pos h2]

/-! ## Claim theorems -/

/-- C4: the canonical pair key is symmetric — `canonical_key a b` equals
`canonical_key b a` for all entity identifiers, because the two identifiers
are sorted before being joined with `|`, so the key under which the
aggregator stores a pair is independent of observation order. -/
theorem C4_canonical_key_symmetric :
    (∀ a b : String, canonical_key a b = canonical_key b a) ∧
    (∀ a b : String, pyStrLe a b = true → canonical_key a b = a ++ "|" ++ b) := by
  refine ⟨canonical_key_comm, ?_⟩
  intro a b hab
  unfold canonical_key
  rw [if_pos hab]

/-- Witness for C4: the sorted-join clause evaluated at a concrete pair. -/
theorem C4_witness : canonical_key "a" "b" = "a" ++ "|" ++ "b" :=
  C4_canonical_key_symmetric.2 "a" "b" (by decide)

/-- C1: the timeline trend heuristic splits the ordered periods in two by
integer division (smaller first half on odd counts), maps categories to
proxy scores (+1 alliance/support/cooperation, -1 conflict/opposition,
-1/2 tension, 0 otherwise), declares "improving"/"deteriorating" when the
second-half average differs from the first by more than 3/10 and "stable"
otherwise, and "insufficient_data" below 2 periods; the four concrete
proxy sequences of the claim evaluate as stated. -/
theorem C1_trend_heuristic :
    (∀ l : List String, l.length < 2 → computeTrend l = "insufficient_data") ∧
    (∀ l : List String,
      (first_half l).length = l.length / 2 ∧
      (second_half l).length = l.length - l.length / 2 ∧
      (first_half l).length ≤ (second_half l).length) ∧
    (sentiment_score "alliance" = 1 ∧ sentiment_score "support" = 1 ∧
      sentiment_score "cooperation" = 1 ∧ sentiment_score "conflict" = -1 ∧
      sentiment_score "opposition" = -1 ∧ sentiment_score "tension" = -(1/2) ∧
      sentiment_score "no_data" = 0) ∧
    (∀ t : String,
      t ∉ (["alliance", "support", "cooperation", "conflict", "opposition", "tension"] :
        List String) →
      sentiment_score t = 0) ∧
    (∀ l : List String, 2 ≤ l.length →
      (computeTrend l = "improving" ↔
        half_avg (second_half l) > half_avg (first_half l) + 3/10) ∧
      (computeTrend l = "deteriorating" ↔
        half_avg (second_half l) < half_avg (first_half l) - 3/10) ∧
      (computeTrend l = "stable" ↔
        ¬(half_avg (second_half l) > half_avg (first_half l) + 3/10) ∧
        ¬(half_avg (second_half l) < half_avg (first_half l) - 3/10))) ∧
    (computeTrend ["alliance", "support", "conflict", "opposition"] = "deteriorating" ∧
      computeTrend ["conflict", "opposition", "alliance", "support"] = "improving" ∧
      computeTrend ["no_data", "no_data", "no_data", "no_data"] = "stable" ∧
      computeTrend ["alliance"] = "insufficient_data") := by
  refine ⟨?_, ?_, ?_, ?_, ?_, ?_⟩
  · intro l h
    rw [computeTrend, if_neg (by omega)]
  · intro l
    refine ⟨?_, by simp [second_half], ?_⟩
    · simp [first_half]
      omega
    · simp only [first_half, second_half, List.length_take, List.length_drop]
      omega
  · refine ⟨?_, ?_, ?_, ?_, ?_, ?_, ?_⟩ <;> simp [sentiment_score] <;> norm_num
  · intro t ht
    simp only [List.mem_cons, List.not_mem_nil, or_false, not_or] at ht
    obtain ⟨h1, h2, h3, h4, h5, h6⟩ := ht
    simp [sentiment_score, h1, h2, h3, h4, h5, h6]
  · intro l hl
    rw [computeTrend, if_pos hl]
    by_cases h1 : half_avg (second_half l) > half_avg (first_half l) + 3/10
    · rw [if_pos h1]
      refine ⟨⟨fun _ => h1, fun _ => rfl⟩, ⟨?_, ?_⟩, ⟨?_, ?_⟩⟩
      · intro h; exact absurd h (by decide)
      · intro h2; exfalso; linarith
      · intro h; exact absurd h (by decide)
      · rintro ⟨hna, _⟩; exact absurd h1 hna
    · rw [if_neg h1]
      by_cases h2 : half_avg (second_half l) < half_avg (first_half l) - 3/10
      · rw [if_pos h2]
        refine ⟨⟨?_, ?_⟩, ⟨fun _ => h2, fun _ => rfl⟩, ⟨?_, ?_⟩⟩
        · intro h; exact absurd h (by decide)
        · intro hlt; exact absurd hlt h1
        · intro h; exact absurd h (by decide)
        · rintro ⟨_, hnb⟩; exact absurd h2 hnb
      · rw [if_neg h2]
        refine ⟨⟨?_, ?_⟩, ⟨?_, ?_⟩, ⟨fun _ => ⟨h1, h2⟩, fun _ => rfl⟩⟩
        · intro h; exact absurd h (by decide)
        · intro hlt; exact absurd hlt h1
        · intro h; exact absurd h (by decide)
        · intro hlt; exact absurd hlt h2
  · refine ⟨?_, ?_, ?_, ?_⟩
    · simp [computeTrend, half_avg, first_half, second_half, sentiment_score]
      norm_num
    · simp [computeTrend, half_avg, first_half, second_half, sentiment_score]
      norm_num
    · simp [computeTrend, half_avg, first_half, second_half, sentiment_score]
      norm_num
    · simp [computeTrend]

/-- Witness for C1: the short-list clause and the default-score clause
evaluated at concrete inputs. -/
theorem C1_witness :
    computeTrend ["conflict"] = "insufficient_data" ∧
      sentiment_score "negotiation" = 0 :=
  ⟨C1_trend_heuristic.1 ["conflict"] (by decide),
    C1_trend_heuristic.2.2.2.1 "negotiation" (by decide)⟩

/-- Shape of a successful year search: the matched group starts with `20`. -/
theorem searchYear_shape (l : List Char) :
    ∀ y, searchYear l = some y → ∃ c3 c4, y = String.mk ['2', '0', c3, c4] := by
  induction l with
  | nil => intro y h; simp [searchYear] at h
  | cons c1 t ih =>
    intro y h
    match t, h with
    | [], h => simp [searchYear] at h
    | [c2], h => simp [searchYear] at h
    | [c2, c3], h => simp [searchYear] at h
    | c2 :: c3 :: c4 :: rest, h =>
      rw [searchYear] at h
      split at h
      · rename_i hc
        obtain ⟨h2, h0, _, _⟩ := hc
        refine ⟨c3, c4, ?_⟩
        rw [h2, h0] at h
        exact (Option.some.injEq _ _ ▸ h).symm
      · exact ih y h

/-- List-level form of the append of strings. -/
theorem str_append_data (a b : String) : (a ++ b).data = a.data ++ b.data := rfl

/-- C10: `parse_date_to_period` returns `"unknown"` exactly when the date
string is empty or contains no `20XX` year match, and when a year matches
but no Arabic month name occurs the month defaults to `01`, giving
`"20XX-01"`. -/
theorem C10_parse_date_to_period (s : String) :
    (parse_date_to_period s = "unknown" ↔ (s = "" ∨ searchYear s.data = none)) ∧
    (∀ y, searchYear s.data = some y → searchMonth s = none →
      parse_date_to_period s = y ++ "-01") := by
  constructor
  · constructor
    · intro h
      by_cases hs : s = ""
      · exact Or.inl hs
      · refine Or.inr ?_
        rw [parse_date_to_period, if_neg hs] at h
        match hy : searchYear s.data with
        | none => rfl
        | some y =>
          rw [hy] at h
          obtain ⟨c3, c4, rfl⟩ := searchYear_shape s.data y hy
          exfalso
          have hdata := congrArg String.data h
          rw [str_append_data, str_append_data] at hdata
          simp at hdata
    · intro h
      rcases h with rfl | hy
      · rfl
      · rw [parse_date_to_period]
        by_cases hs : s = ""
        · rw [if_pos hs]
        · rw [if_neg hs, hy]
  · intro y hy hm
    have hs : s ≠ "" := by
      rintro rfl
      simp [searchYear] at hy
    rw [parse_date_to_period, if_neg hs, hy, hm]
    obtain ⟨d⟩ := y
    show String.mk d ++ "-" ++ "01" = String.mk d ++ "-01"
    apply congrArg String.mk
    show (d ++ ['-']) ++ ['0', '1'] = d ++ ['-', '0', '1']
    simp

/-- Witness for C10: a date with a year but no Arabic month name falls
back to month `01`. -/
theorem C10_witness : parse_date_to_period "نشر بتاريخ 2024" = "2024" ++ "-01" :=
  (C10_parse_date_to_period "نشر بتاريخ 2024").2 "2024" (by decide) (by decide)

/-- C5: `clean_json_response` on the truncated input returns the
best-effort repaired object equivalent to the completed JSON; the model's
`Option` result makes every failure path a `none`, never an exception. -/
theorem C5_truncated_repair :
    clean_json_response "\x7b\"a\": [1, 2" =
      some (JVal.jobj [(['a'], JVal.jarr [JVal.jnum 1, JVal.jnum 2])]) := by
  rfl

/-- C6: `clean_json_response` strips the reasoning-delimiter pair and the
fenced code block, then parses the remaining object. -/
theorem C6_think_and_fence_stripping :
    clean_json_response "<think>reasoning</think>```json\n\x7b\"a\":1\x7d\n```" =
      some (JVal.jobj [(['a'], JVal.jnum 1)]) := by
  rfl

/-- C3: the activity-window policy — suppression happens exactly when a
truthy period other than `"unknown"` lies strictly before the window's
`start`; an `end` bound in the past never suppresses, so the formerly
active entity is still matched; periods the program derives are never the
empty string, so the truthiness guard never fires on them; and the two
concrete catalog cases of the claim behave as stated. -/
theorem C3_activity_window :
    (∀ (e : Entity) (p : String), suppressed e (some p) = true ↔
      p ≠ "" ∧ p ≠ "unknown" ∧
        ∃ s, e.active_period.start = some s ∧ pyStrLt p s = true) ∧
    (∀ (catalog : List Entity) (e : Entity) (t p : String),
      e ∈ catalog → t ≠ "" → p ≠ "unknown" →
      (∀ s, e.active_period.start = some s → pyStrLt p s = false) →
      alias_matches e t = true →
      e.id ∈ findEntitiesIn catalog t (some p)) ∧
    (∀ (catalog : List Entity) (e : Entity) (t p s : String),
      (catalog.map (fun x => x.id)).Nodup → e ∈ catalog →
      p ≠ "" → p ≠ "unknown" →
      e.active_period.start = some s → pyStrLt p s = true →
      e.id ∉ findEntitiesIn catalog t (some p)) ∧
    (∀ d : String, parse_date_to_period d ≠ "") ∧
    ("نظام_الأسد" ∈ find_entities_in_text "سيطر نظام الأسد على المدينة" (some "2025-01")) ∧
    ("الحكومة_الجديدة" ∉
      find_entities_in_text "أعلنت الحكومة الجديدة عن خطة" (some "2024-06")) := by
  refine ⟨?_, ?_, ?_, ?_, by decide, by decide⟩
  · intro e p
    rw [suppressed]
    by_cases h0 : p = ""
    · simp [h0]
    · rw [if_neg h0]
      by_cases hp : p = "unknown"
      · simp [h0, hp]
      · rw [if_neg hp]
        cases hst : e.active_period.start with
        | none => simp [h0, hp, hst]
        | some s => simp [h0, hp, hst]
  · intro catalog e t p he ht hp hnostart halias
    rw [findEntitiesIn, if_neg ht]
    have hsup : suppressed e (some p) = false := by
      rw [suppressed]
      by_cases h0 : p = ""
      · rw [if_pos h0]
      · rw [if_neg h0, if_neg hp]
        cases hst : e.active_period.start with
        | none => rfl
        | some s => exact hnostart s hst
    refine List.mem_map.mpr ⟨e, List.mem_filter.mpr ⟨he, ?_⟩, rfl⟩
    rw [entity_kept, hsup, halias]
    rfl
  · intro catalog e t p s hnd he hp0 hp hst hlt hmem
    rw [findEntitiesIn] at hmem
    by_cases ht : t = ""
    · rw [if_pos ht] at hmem
      exact absurd hmem (List.not_mem_nil _)
    · rw [if_neg ht] at hmem
      obtain ⟨e', he'f, hid⟩ := List.mem_map.mp hmem
      have he'c : e' ∈ catalog := (List.mem_filter.mp he'f).1
      have hkept : entity_kept e' t (some p) = true := (List.mem_filter.mp he'f).2
      have : e' = e := List.inj_on_of_nodup_map hnd he'c he hid
      subst this
      rw [entity_kept] at hkept
      have hsup : suppressed e' (some p) = true := by
        rw [suppressed, if_neg hp0, if_neg hp, hst]
        exact hlt
      rw [hsup] at hkept
      simp at hkept
  · intro d
    rw [parse_date_to_period]
    by_cases hd : d = ""
    · rw [if_pos hd]
      decide
    · rw [if_neg hd]
      cases hy : searchYear d.data with
      | none => exact (by decide : ("unknown" : String) ≠ "")
      | some y =>
        obtain ⟨c3, c4, rfl⟩ := searchYear_shape d.data y hy
        intro hcontra
        have hdd := congrArg String.data hcontra
        rw [str_append_data, str_append_data] at hdd
        simp at hdd

/-- Witness for C3: the general non-suppression clause applied to the
Russia entry (no activity window) at a pre-transition period. -/
theorem C3_witness :
    "روسيا" ∈ find_entities_in_text "زار وفد موسكو دمشق" (some "2023-05") :=
  C3_activity_window.2.1 ENTITIES russiaEntity "زار وفد موسكو دمشق" "2023-05"
    (by decide) (by decide) (by decide)
    (fun s hs => by simp [russiaEntity] at hs) (by decide)

/-- Detection needs the kept-predicate: an entity whose predicate is false
never contributes its identifier (shared helper). -/
theorem not_mem_findEntities_of_kept_false (catalog : List Entity) (e : Entity)
    (t : String) (p : Option String)
    (hnd : (catalog.map (fun x => x.id)).Nodup) (he : e ∈ catalog)
    (hk : entity_kept e t p = false) : e.id ∉ findEntitiesIn catalog t p := by
  intro hmem
  rw [findEntitiesIn] at hmem
  by_cases ht : t = ""
  · rw [if_pos ht] at hmem
    exact absurd hmem (List.not_mem_nil _)
  · rw [if_neg ht] at hmem
    obtain ⟨e', he'f, hid⟩ := List.mem_map.mp hmem
    have he'c : e' ∈ catalog := (List.mem_filter.mp he'f).1
    have hkept : entity_kept e' t p = true := (List.mem_filter.mp he'f).2
    have : e' = e := List.inj_on_of_nodup_map hnd he'c he hid
    subst this
    rw [hk] at hkept
    exact Bool.false_ne_true hkept

/-- C8 counterexample: a catalog entry with an empty alias list is not
detected even though its identifier occurs verbatim in the text, refuting
the identifier-as-alias fallback. -/
theorem C8_counterexample :
    zeroAliasEntity.aliases = [] ∧ zeroAliasEntity.id = "X" ∧
    pyIn "X" "X met Y" = true ∧
    findEntitiesIn [zeroAliasEntity] "X met Y" (some "2025-01") = [] := by
  decide

/-- C8 (amended): the matcher has no identifier fallback — an entity with
an empty alias list is never detected, whatever the text contains; its
kept-predicate is constantly false and its identifier never appears in the
result. -/
theorem C8_no_identifier_fallback :
    (∀ (e : Entity) (t : String) (p : Option String),
      e.aliases = [] → entity_kept e t p = false) ∧
    (∀ (catalog : List Entity) (e : Entity) (t : String) (p : Option String),
      e ∈ catalog → e.aliases = [] → (catalog.map (fun x => x.id)).Nodup →
      e.id ∉ findEntitiesIn catalog t p) := by
  have base : ∀ (e : Entity) (t : String) (p : Option String),
      e.aliases = [] → entity_kept e t p = false := by
    intro e t p he
    rw [entity_kept, alias_matches, he]
    simp
  refine ⟨base, ?_⟩
  intro catalog e t p hec hal hnd
  exact not_mem_findEntities_of_kept_false catalog e t p hnd hec (base e t p hal)

/-- Witness for C8: the no-detection clause applied to the concrete
zero-alias catalog. -/
theorem C8_witness :
    zeroAliasEntity.id ∉
      findEntitiesIn [zeroAliasEntity] "report about X today" (some "2025-01") :=
  C8_no_identifier_fallback.2 [zeroAliasEntity] zeroAliasEntity
    "report about X today" (some "2025-01") (by decide) (by decide) (by decide)

/-- C9 counterexample: a Latin-script alias is not matched
case-insensitively — the alias `HTS` occurs in the text only as `hts` and
the entity is not detected, refuting the case-insensitivity clause. -/
theorem C9_counterexample :
    latinAliasEntity.aliases = ["HTS"] ∧
    pyIn "hts" "the hts faction advanced" = true ∧
    findEntitiesIn [latinAliasEntity] "the hts faction advanced" (some "2025-03") = [] := by
  decide

/-- C9 (amended): alias matching is exact, case-sensitive substring
containment for every alias, Latin-script aliases included: an entity
matches exactly when one of its alias strings occurs verbatim in the text,
and the two concrete Latin-case probes behave accordingly. -/
theorem C9_case_sensitive_matching :
    (∀ (e : Entity) (t : String), alias_matches e t = true ↔
      ∃ a ∈ e.aliases, containsSub a.data t.data = true) ∧
    (∀ (catalog : List Entity) (t : String) (p : Option String) (i : String),
      t ≠ "" →
      (i ∈ findEntitiesIn catalog t p ↔
        ∃ e ∈ catalog, entity_kept e t p = true ∧ e.id = i)) ∧
    ("hts_latin" ∈ findEntitiesIn [latinAliasEntity] "HTS expanded" (some "2025-03")) ∧
    ("hts_latin" ∉ findEntitiesIn [latinAliasEntity] "hts expanded" (some "2025-03")) := by
  refine ⟨?_, ?_, by decide, by decide⟩
  · intro e t
    rw [alias_matches]
    simp [pyIn]
  · intro catalog t p i ht
    rw [findEntitiesIn, if_neg ht]
    simp only [List.mem_map, List.mem_filter]
    constructor
    · rintro ⟨e, ⟨hec, hk⟩, rfl⟩
      exact ⟨e, hec, hk, rfl⟩
    · rintro ⟨e, hec, hk, rfl⟩
      exact ⟨e, ⟨hec, hk⟩, rfl⟩

/-- Witness for C9: the matcher-level characterization applied to the
Latin-alias catalog with an exact-case occurrence. -/
theorem C9_witness :
    "hts_latin" ∈ findEntitiesIn [latinAliasEntity] "HTS talks" (some "2024-01") :=
  (C9_case_sensitive_matching.2.1 [latinAliasEntity] "HTS talks" (some "2024-01")
    "hts_latin" (by decide)).mpr ⟨latinAliasEntity, by decide, by decide, rfl⟩

/-- Attachment never alters the index or quote of an evidence item
(shared helper). -/
theorem attach_evidence_preserves (arts : List ArticleRef) (ev : Evidence) :
    (attach_evidence arts ev).article_index = ev.article_index ∧
    (attach_evidence arts ev).quote = ev.quote := by
  rw [attach_evidence]
  split
  · cases arts.get? (ev.article_index.getD 1 - 1).toNat with
    | none => exact ⟨rfl, rfl⟩
    | some art => exact ⟨rfl, rfl⟩
  · exact ⟨rfl, rfl⟩

/-- C7 counterexample: an evidence item and a raw reference pointing at
article index 5 of a one-article period survive, index included, into the
returned analysis — out-of-range indices are not removed, only left
without url/title. -/
theorem C7_counterexample :
    (postprocess_analysis periodArticles1 outOfRangeAnalysis).evidence =
      [{ quote := "اقتباس", article_index := some 5 }] ∧
    (postprocess_analysis periodArticles1 outOfRangeAnalysis).article_references = [5] ∧
    periodArticles1.length = 1 := by
  decide

/-- C7 (amended): index handling is non-fatal — an in-range 1-based
evidence index gets the article's url and title attached, an out-of-range
index leaves the item unchanged (kept, not dropped), every evidence item
survives with its quote and index intact, the derived `articles` list
resolves exactly the in-range references, and the raw reference list is
returned as parsed. -/
theorem C7_index_resolution :
    (∀ (arts : List ArticleRef) (ev : Evidence) (idx : Int) (art : ArticleRef),
      ev.article_index = some idx → 1 ≤ idx → idx ≤ (arts.length : Int) →
      arts.get? (idx - 1).toNat = some art →
      attach_evidence arts ev =
        { ev with article_url := some art.url, article_title := some art.title }) ∧
    (∀ (arts : List ArticleRef) (ev : Evidence) (idx : Int),
      ev.article_index = some idx → (idx < 1 ∨ (arts.length : Int) < idx) →
      attach_evidence arts ev = ev) ∧
    (∀ (arts : List ArticleRef) (an : Analysis) (ev' : Evidence),
      ev' ∈ (postprocess_analysis arts an).evidence →
      ∃ ev ∈ an.evidence, ev' = attach_evidence arts ev ∧
        ev'.article_index = ev.article_index ∧ ev'.quote = ev.quote) ∧
    (∀ (arts : List ArticleRef) (refs : List Int),
      (resolve_references arts refs).length =
        (refs.filter (fun idx => decide (0 < idx ∧ idx ≤ (arts.length : Int)))).length) ∧
    (∀ (arts : List ArticleRef) (refs : List Int) (idx : Int) (art : ArticleRef),
      idx ∈ refs → 0 < idx → idx ≤ (arts.length : Int) →
      arts.get? (idx - 1).toNat = some art →
      ({ title := art.title, url := art.url, date := art.date } : ResolvedArticle) ∈
        resolve_references arts refs) ∧
    (∀ (arts : List ArticleRef) (an : Analysis),
      (postprocess_analysis arts an).article_references = an.article_references) := by
  refine ⟨?_, ?_, ?_, ?_, ?_, fun arts an => rfl⟩
  · intro arts ev idx art hev h1 h2 hget
    rw [attach_evidence]
    simp only [hev, Option.getD_some]
    rw [if_pos ⟨by omega, by omega⟩, hget]
  · intro arts ev idx hev hout
    rw [attach_evidence]
    simp only [hev, Option.getD_some]
    rcases hout with h | h
    · rw [if_neg (by omega)]
    · rw [if_neg (by omega)]
  · intro arts an ev' hmem
    rw [postprocess_analysis] at hmem
    obtain ⟨ev, hev, rfl⟩ := List.mem_map.mp hmem
    exact ⟨ev, hev, rfl, (attach_evidence_preserves arts ev).1,
      (attach_evidence_preserves arts ev).2⟩
  · intro arts refs
    rw [resolve_references, List.length_filterMap_eq_countP,
      ← List.countP_eq_length_filter]
    refine List.countP_congr ?_
    intro idx _
    by_cases h : 0 < idx ∧ idx ≤ (arts.length : Int)
    · have hlt : idx.toNat - 1 < arts.length := by omega
      obtain ⟨a, ha⟩ : ∃ a, arts[idx.toNat - 1]? = some a :=
        ⟨arts[idx.toNat - 1], List.getElem?_eq_getElem hlt⟩
      simp [h, ha]
    · simp [h]
  · intro arts refs idx art hin h1 h2 hget
    rw [resolve_references]
    refine List.mem_filterMap.mpr ⟨idx, hin, ?_⟩
    rw [if_pos ⟨h1, h2⟩, hget]
    rfl

/-- Witness for C7: the in-range attachment clause applied to the
one-article fixture. -/
theorem C7_witness :
    attach_evidence periodArticles1 { quote := "اقتباس صحيح", article_index := some 1 } =
      { quote := "اقتباس صحيح", article_index := some 1,
        article_url := some "https://example.org/p1", article_title := some "مقال أول" } :=
  C7_index_resolution.1 periodArticles1
    { quote := "اقتباس صحيح", article_index := some 1 } 1
    { title := "مقال أول", content := "نص", date := "5 يناير 2025",
      period := "2025-01", url := "https://example.org/p1" }
    rfl (by decide) (by decide) rfl

/-- Count of position pairs of a list. -/
theorem length_listPairs (l : List α) : (listPairs l).length = l.length.choose 2 := by
  induction l with
  | nil => simp [listPairs]
  | cons x xs ih =>
    simp [listPairs, ih, Nat.choose_succ_succ, Nat.choose_one_right]

/-- Components of a position pair are members of the list. -/
theorem listPairs_mem_components :
    ∀ {l : List α} {p : α × α}, p ∈ listPairs l → p.1 ∈ l ∧ p.2 ∈ l := by
  intro l
  induction l with
  | nil => intro p h; simp [listPairs] at h
  | cons x xs ih =>
    intro p h
    rw [listPairs] at h
    rcases List.mem_append.mp h with h1 | h2
    · obtain ⟨y, hy, rfl⟩ := List.mem_map.mp h1
      exact ⟨List.mem_cons_self _ _, List.mem_cons_of_mem _ hy⟩
    · obtain ⟨h1', h2'⟩ := ih h2
      exact ⟨List.mem_cons_of_mem _ h1', List.mem_cons_of_mem _ h2'⟩

/-- Position pairs of a duplicate-free list are duplicate-free. -/
theorem listPairs_nodup : ∀ {l : List α}, l.Nodup → (listPairs l).Nodup := by
  intro l
  induction l with
  | nil => intro _; simp [listPairs]
  | cons x xs ih =>
    intro h
    rcases List.nodup_cons.mp h with ⟨hx, hxs⟩
    rw [listPairs]
    refine List.Nodup.append (List.Nodup.map ?_ hxs) (ih hxs) ?_
    · intro u v huv
      simpa using huv
    · intro p hp1 hp2
      obtain ⟨y, hy, rfl⟩ := List.mem_map.mp hp1
      exact hx (listPairs_mem_components hp2).1

/-- Any strictly ascending pair of members of a strictly sorted list occurs
among its position pairs. -/
theorem listPairs_mem_of_lt : ∀ (l : List String),
    l.Pairwise (fun a b => pyStrLt a b = true) →
    ∀ x y : String, x ∈ l → y ∈ l → pyStrLt x y = true → (x, y) ∈ listPairs l
  | [], _, x, _, hx, _, _ => by simp at hx
  | a :: t, hl, x, y, hx, hy, hxy => by
    rcases List.pairwise_cons.mp hl with ⟨ha, ht⟩
    rcases List.mem_cons.mp hx with rfl | hx'
    · have hy' : y ∈ t := by
        rcases List.mem_cons.mp hy with rfl | h
        · simp [pyStrLt, lexLtCh_irrefl] at hxy
        · exact h
      rw [listPairs]
      exact List.mem_append.mpr (Or.inl (List.mem_map.mpr ⟨y, hy', rfl⟩))
    · have hy' : y ∈ t := by
        rcases List.mem_cons.mp hy with rfl | h
        · have h1 : pyStrLt y x = true := ha x hx'
          have h2 : lexLtCh y.data y.data = true := lexLtCh_trans h1 hxy
          simp [lexLtCh_irrefl] at h2
        · exact h
      rw [listPairs]
      exact List.mem_append.mpr (Or.inr (listPairs_mem_of_lt t ht x y hx' hy' hxy))

/-- List-level injectivity of joining on a separator absent from the left
parts. -/
theorem bar_append_inj : ∀ (a c b d : List Char),
    '|' ∉ a → '|' ∉ c → a ++ '|' :: b = c ++ '|' :: d → a = c ∧ b = d
  | [], [], b, d, _, _, h => by simpa using h
  | [], x :: xs, b, d, _, hc, h => by
    simp only [List.nil_append, List.cons_append, List.cons.injEq] at h
    exact absurd (h.1 ▸ List.mem_cons_self x xs) hc
  | x :: xs, [], b, d, ha, _, h => by
    simp only [List.nil_append, List.cons_append, List.cons.injEq] at h
    exact absurd (h.1 ▸ List.mem_cons_self x xs) ha
  | x :: xs, z :: zs, b, d, ha, hc, h => by
    simp only [List.cons_append, List.cons.injEq] at h
    obtain ⟨rfl, h2⟩ := h
    obtain ⟨h3, h4⟩ := bar_append_inj xs zs b d
      (fun hm => ha (List.mem_cons_of_mem _ hm))
      (fun hm => hc (List.mem_cons_of_mem _ hm)) h2
    exact ⟨by rw [h3], h4⟩

/-- String-level injectivity of the `|` join on identifiers free of `|`. -/
theorem bar_join_inj {a b c d : String} (ha : '|' ∉ a.data) (hc : '|' ∉ c.data)
    (h : a ++ "|" ++ b = c ++ "|" ++ d) : a = c ∧ b = d := by
  have hd := congrArg String.data h
  rw [str_append_data, str_append_data, str_append_data, str_append_data,
    List.append_assoc, List.append_assoc] at hd
  obtain ⟨h1, h2⟩ := bar_append_inj a.data c.data b.data d.data ha hc (by simpa using hd)
  obtain ⟨la⟩ := a
  obtain ⟨lb⟩ := b
  obtain ⟨lc⟩ := c
  obtain ⟨ld⟩ := d
  exact ⟨congrArg String.mk h1, congrArg String.mk h2⟩

/-- The identifiers of the entity catalog are pairwise distinct. -/
theorem entities_ids_nodup : (ENTITIES.map (fun e => e.id)).Nodup := by decide

/-- No identifier of the entity catalog contains the pair-key separator. -/
theorem entities_ids_no_bar : ∀ i ∈ ENTITIES.map (fun e => e.id), '|' ∉ i.data := by
  decide

/-- Detected identifiers come from the catalog. -/
theorem findEntitiesIn_subset {catalog : List Entity} {t : String} {p : Option String}
    {i : String} (h : i ∈ findEntitiesIn catalog t p) :
    i ∈ catalog.map (fun e => e.id) := by
  rw [findEntitiesIn] at h
  split at h
  · exact absurd h (List.not_mem_nil _)
  · obtain ⟨e, hef, rfl⟩ := List.mem_map.mp h
    exact List.mem_map.mpr ⟨e, (List.mem_filter.mp hef).1, rfl⟩

/-- Detection results are duplicate-free when the catalog identifiers are. -/
theorem findEntitiesIn_nodup (catalog : List Entity) (t : String) (p : Option String)
    (h : (catalog.map (fun e => e.id)).Nodup) : (findEntitiesIn catalog t p).Nodup := by
  rw [findEntitiesIn]
  split
  · exact List.nodup_nil
  · exact List.Nodup.sublist (List.Sublist.map _ (List.filter_sublist _)) h

/-- Transitivity of the Python string order. -/
theorem pyStrLe_trans (a b c : String) (hab : pyStrLe a b = true)
    (hbc : pyStrLe b c = true) : pyStrLe a c = true :=
  lexLeCh_trans a.data b.data c.data hab hbc

/-- Totality of the Python string order, in the Boolean form the sorting
lemmas need. -/
theorem pyStrLe_total_bool (a b : String) : pyStrLe a b || pyStrLe b a := by
  rcases lexLeCh_total a.data b.data with h | h <;> simp [pyStrLe, h]

/-- Disequality of strings splits into a strict comparison either way. -/
theorem pyStrLt_of_ne {x y : String} (hne : x ≠ y) :
    pyStrLt x y = true ∨ pyStrLt y x = true := by
  have hdata : ∀ h : x.data = y.data, x = y := by
    intro h
    obtain ⟨lx⟩ := x
    obtain ⟨ly⟩ := y
    exact congrArg String.mk h
  rcases lexLeCh_total x.data y.data with h | h
  · exact Or.inl ((lexLtCh_iff _ _).mpr ⟨h, fun hd => hne (hdata hd)⟩)
  · exact Or.inr ((lexLtCh_iff _ _).mpr ⟨h, fun hd => hne (hdata hd.symm)⟩)

/-- Key list of an article's pair entries, in the qualifying case
(shared helper). -/
theorem pair_keys_eq (a : Article) (h2 : 2 ≤ (detected_entities a).length) :
    (pair_entries_for_article a).map (fun e => e.1) =
      (listPairs ((detected_entities a).mergeSort (fun x y => pyStrLe x y))).map
        (fun p => p.1 ++ "|" ++ p.2) := by
  rw [pair_entries_for_article, if_pos h2, List.map_map]
  rfl

/-- Sorted entity list of an article: strictly ascending and made of the
detected identifiers (shared helper). -/
theorem sorted_entities_facts (a : Article) :
    ((detected_entities a).mergeSort (fun x y => pyStrLe x y)).Pairwise
      (fun x y => pyStrLt x y = true) ∧
    ((detected_entities a).mergeSort (fun x y => pyStrLe x y)).Nodup := by
  have hnd : (detected_entities a).Nodup :=
    findEntitiesIn_nodup ENTITIES _ _ entities_ids_nodup
  have hndm : ((detected_entities a).mergeSort (fun x y => pyStrLe x y)).Nodup :=
    ((List.mergeSort_perm (detected_entities a) _).nodup_iff).mpr hnd
  have hle : ((detected_entities a).mergeSort (fun x y => pyStrLe x y)).Pairwise
      (fun x y => pyStrLe x y = true) := by
    have := List.sorted_mergeSort
      (fun x y z hab hbc => pyStrLe_trans x y z hab hbc)
      (fun x y => pyStrLe_total_bool x y) (detected_entities a)
    exact this.imp (fun h => h)
  refine ⟨?_, hndm⟩
  refine (hle.and hndm).imp ?_
  intro x y ⟨h1, h2⟩
  refine (lexLtCh_iff _ _).mpr ⟨h1, fun hd => h2 ?_⟩
  obtain ⟨lx⟩ := x
  obtain ⟨ly⟩ := y
  exact congrArg String.mk hd

/-- C2: every article with k ≥ 2 detected entities contributes exactly
`C(k, 2)` pair-period entries — one per unordered pair, keyed by the pair's
canonical key and the article's derived period, with no duplicate key —
articles with fewer than 2 entities contribute none, and the aggregator's
total entry count is the sum of `C(k, 2)` over all articles. -/
theorem C2_pair_aggregation :
    (∀ a : Article,
      (pair_entries_for_article a).length = (detected_entities a).length.choose 2) ∧
    (∀ a : Article, (detected_entities a).length < 2 → pair_entries_for_article a = []) ∧
    (∀ (a : Article) (k p : String) (r : ArticleRef),
      (k, p, r) ∈ pair_entries_for_article a → p = parse_date_to_period a.date) ∧
    (∀ (a : Article) (x y : String),
      x ∈ detected_entities a → y ∈ detected_entities a → x ≠ y →
      canonical_key x y ∈ (pair_entries_for_article a).map (fun e => e.1)) ∧
    (∀ a : Article, ((pair_entries_for_article a).map (fun e => e.1)).Nodup) ∧
    (∀ articles : List Article,
      (find_articles_with_entity_pairs articles).length =
        (articles.map (fun a => (detected_entities a).length.choose 2)).sum) := by
  have hlen : ∀ a : Article,
      (pair_entries_for_article a).length = (detected_entities a).length.choose 2 := by
    intro a
    rw [pair_entries_for_article]
    by_cases h2 : 2 ≤ (detected_entities a).length
    · rw [if_pos h2, List.length_map, length_listPairs, List.length_mergeSort]
    · rw [if_neg h2, Nat.choose_eq_zero_of_lt (by omega)]
      rfl
  refine ⟨hlen, ?_, ?_, ?_, ?_, ?_⟩
  · intro a h2
    rw [pair_entries_for_article, if_neg (by omega)]
  · intro a k p r hmem
    rw [pair_entries_for_article] at hmem
    split at hmem
    · obtain ⟨pr, hpr, heq⟩ := List.mem_map.mp hmem
      cases heq
      rfl
    · exact absurd hmem (List.not_mem_nil _)
  · intro a x y hx hy hne
    obtain ⟨hsorted, hndm⟩ := sorted_entities_facts a
    have h2 : 2 ≤ (detected_entities a).length := by
      by_contra hlt
      cases hl : detected_entities a with
      | nil => rw [hl] at hx; exact absurd hx (List.not_mem_nil _)
      | cons z zs =>
        have hzs : zs = [] := by
          rw [hl] at hlt
          rw [List.length_cons] at hlt
          exact List.eq_nil_of_length_eq_zero (by omega)
        rw [hl, hzs] at hx hy
        simp at hx hy
        exact hne (hx.trans hy.symm)
    rw [pair_keys_eq a h2]
    have hxm : x ∈ (detected_entities a).mergeSort (fun x y => pyStrLe x y) :=
      List.mem_mergeSort.mpr hx
    have hym : y ∈ (detected_entities a).mergeSort (fun x y => pyStrLe x y) :=
      List.mem_mergeSort.mpr hy
    rcases pyStrLt_of_ne hne with hlt | hlt
    · have hpair := listPairs_mem_of_lt _ hsorted x y hxm hym hlt
      have hle : pyStrLe x y = true := ((lexLtCh_iff x.data y.data).mp hlt).1
      have hkey : canonical_key x y = x ++ "|" ++ y := by
        rw [canonical_key, if_pos hle]
      rw [hkey]
      exact List.mem_map.mpr ⟨(x, y), hpair, rfl⟩
    · have hpair := listPairs_mem_of_lt _ hsorted y x hym hxm hlt
      have hle : pyStrLe y x = true := ((lexLtCh_iff y.data x.data).mp hlt).1
      have hkey : canonical_key x y = y ++ "|" ++ x := by
        rw [canonical_key_comm, canonical_key, if_pos hle]
      rw [hkey]
      exact List.mem_map.mpr ⟨(y, x), hpair, rfl⟩
  · intro a
    by_cases h2 : 2 ≤ (detected_entities a).length
    · rw [pair_keys_eq a h2]
      obtain ⟨hsorted, hndm⟩ := sorted_entities_facts a
      refine List.Nodup.map_on ?_ (listPairs_nodup hndm)
      intro p hp q hq hpq
      have hpc := listPairs_mem_components hp
      have hqc := listPairs_mem_components hq
      have hbar : ∀ i, i ∈ (detected_entities a).mergeSort (fun x y => pyStrLe x y) →
          '|' ∉ i.data := by
        intro i hi
        exact entities_ids_no_bar i
          (findEntitiesIn_subset (List.mem_mergeSort.mp hi))
      obtain ⟨h1, h2'⟩ := bar_join_inj (hbar p.1 hpc.1) (hbar q.1 hqc.1) hpq
      exact Prod.ext h1 h2'
    · rw [pair_entries_for_article, if_neg h2]
      simp
  · intro articles
    induction articles with
    | nil => rfl
    | cons a as ih =>
      rw [find_articles_with_entity_pairs, List.flatMap_cons, List.length_append,
        List.map_cons, List.sum_cons, hlen a]
      rw [find_articles_with_entity_pairs] at ih
      rw [ih]

/-- Witness for C2: the per-article count clause at an article with two
detected entities (Russia and Turkey), contributing exactly one entry. -/
theorem C2_witness : (pair_entries_for_article pairArticle).length = Nat.choose 2 2 := by
  have h := C2_pair_aggregation.1 pairArticle
  have hd : (detected_entities pairArticle).length = 2 := by decide
  rw [hd] at h
  exact h
